import Mathlib

/-!
Service supervision of docker-monitor (package `upkeep`)

A shallow embedding of `upkeep/service.v2.go`, of the container validation of
`main.go` (`NewRecord`) and of the `tcp` allocator of `cmd/command.go`.

Conventions of the embedding.

* Go strings are Lean `String`s; a Go byte length is `String.utf8ByteSize`.
* Go `int64` fields are `Int`; none of the code below does arithmetic on them.
* Package-level variables (`Record`, `rec`, `Advertise`, `AllocHelper`) are
  explicit: the two tables are fields of `Registry`, the other two are fields
  of `Config`.
* A goroutine started by `Register` is an entry of `Registry.tasks`; its
  cancellable context is the flag `Task.cancelled`, and the cancel function
  stored in a `RunningRecord` is the index of that entry.
* A Go run-time panic is the outcome `Outcome.panicked`, which keeps the
  tables as they were when the panic was raised.
* The coordination store behind `kAPI.Set` is a transition function on an
  arbitrary store state; the ticks of the supervisor loop are an input list.
-/

namespace Upkeep

/-! ## Data model -/

/-- One port mapping of a container (`docker.APIPort`). -/
structure APIPort where
  PrivatePort : Int
  PublicPort : Int
  Typ : String
  IP : String
  deriving DecidableEq, Repr

/-- The descriptor `Service` (service.v2.go, lines 56-70). Durations are kept
in nanoseconds; the proxy records of the ambassador client are carried as
text. -/
structure Service where
  Hb : Int
  TTL : Int
  PHb : Int
  ProbeType : String
  ProbeEndpoint : String
  Id : String
  Srv : String
  Port : String
  Net : List APIPort
  Proxy : List String
  ProxyCfg : String
  deriving DecidableEq, Repr

/-- The existence guard of a store write (`etcd.PrevExistType`):
`PrevIgnore` is "ignore-existence", `PrevExist` is "require-existence". -/
inductive PrevExistType where
  | PrevIgnore
  | PrevExist
  | PrevNoExist
  deriving DecidableEq, Repr

/-- The options of a store write (`etcd.SetOptions`), as far as the code sets
them: `Register` builds `&etcd.SetOptions{TTL: service.TTL}`, so the guard
starts at its zero value `PrevIgnore`. -/
structure SetOptions where
  PrevExist : PrevExistType
  TTL : Int
  deriving DecidableEq, Repr

/-! ## Formatting helpers of the Go standard library -/

/-- The verb `%d` of `fmt.Sprintf` on an integer: decimal digits, with a
leading minus sign for a negative number. -/
def fmtInt : Int → String
  | Int.ofNat n => Nat.repr n
  | Int.negSucc n => "-" ++ Nat.repr (n + 1)

/-- The call `fmt.Sprintf("%s/%s:%s", srv, advertise, port)`. -/
def sprintfKey (srv advertise port : String) : String :=
  srv ++ "/" ++ advertise ++ ":" ++ port

/-- The loop of `path.Base` that strips trailing slashes, on the reversed
path. -/
def stripSlashes (rev : List Char) : List Char :=
  rev.dropWhile (fun c => c == '/')

/-- The last element of a path, `path.Base` of the Go standard library:
`"."` for the empty path, trailing slashes stripped, then what follows the
last slash, and `"/"` when nothing is left. -/
def pathBase (path : String) : String :=
  if path = "" then "."
  else
    let stripped := stripSlashes path.data.reverse
    let last := (stripped.takeWhile (fun c => c != '/')).reverse
    if last = [] then "/" else String.mk last

/-! ## Lease keys and probe target (Register, lines 144-161) -/

/-- The body of the loop `for _, p := range serv.Net` (lines 149-153): append
the key of `p` when its public port is set and bound to the wildcard
address. -/
def appendNetKey (srv advertise : String) (key : List String) (p : APIPort) : List String :=
  if p.PublicPort ≠ 0 ∧ p.IP = "0.0.0.0" then
    key ++ [sprintfKey srv advertise (fmtInt p.PublicPort)]
  else key

/-- The lease keys `serv.key` as `Register` derives them (lines 132-154):
starting from `make([]string, 0)`, one key for an explicit port, otherwise the
loop over a non-empty `Net`. -/
def deriveKey (advertise : String) (service : Service) : List String :=
  if service.Port ≠ "" then
    [] ++ [sprintfKey service.Srv advertise service.Port]
  else if service.Net.length > 0 then
    service.Net.foldl (appendNetKey service.Srv advertise) []
  else []

/-- The key derivation in the words of the specification: one key for an
explicit port; otherwise one key, in `Net` order, per mapping whose public
port is nonzero and bound to the wildcard address. -/
def deriveKeyRef (advertise : String) (service : Service) : List String :=
  if service.Port ≠ "" then
    [service.Srv ++ "/" ++ advertise ++ ":" ++ service.Port]
  else
    (service.Net.filter (fun p => decide (p.PublicPort ≠ 0) && decide (p.IP = "0.0.0.0"))).map
      (fun p => service.Srv ++ "/" ++ advertise ++ ":" ++ fmtInt p.PublicPort)

/-- The probe target of lines 156-161. `serv.key[0]` is out of range for an
empty key list, which is the result `none`. -/
def endpoint (probeEndpoint : String) (key : List String) : Option String :=
  match key with
  | [] => none
  | k0 :: _ =>
    if probeEndpoint = "" then some (pathBase k0)
    else some (pathBase k0 ++ "/" ++ probeEndpoint)

/-! ## The failure gate -/

/-- Modelled from the spec: the Failure Gate behind `NewFail`, `Good`, `Bad`
and `Pass`, whose source file is not among the sources; a count of consecutive
failures and the maximum it is compared with. -/
structure Fail where
  count : Nat
  max : Nat
  deriving DecidableEq, Repr

/-- The constant `MaxFailAttemps` (service.v2.go, line 53). -/
def MaxFailAttemps : Nat := 3

/-- Modelled from the spec: `NewFail(max)`, a gate with an empty streak. -/
def NewFail (max : Nat) : Fail := { count := 0, max := max }

/-- Modelled from the spec: `Good()` resets the streak to 0. -/
def Fail.Good (f : Fail) : Fail := { f with count := 0 }

/-- Modelled from the spec: `Bad()` increments the streak and returns the new
count. -/
def Fail.Bad (f : Fail) : Fail × Nat := ({ f with count := f.count + 1 }, f.count + 1)

/-- Modelled from the spec: `Pass()` is true while count < max. -/
def Fail.Pass (f : Fail) : Bool := decide (f.count < f.max)

/-! ## The lease write cycle (keep, lines 83-100) -/

/-- The store behind `serv.kAPI`. `Set st k opts` is the call
`serv.kAPI.Set(c, k, node.MetaData, serv.opts)` in store state `st`: the store
state after the call and the error, `none` for `nil`. A call whose context
has expired is one of the calls that answer with an error. -/
structure KeysAPI (σ : Type) where
  Set : σ → String → SetOptions → σ × Option String

/-- One call of `kAPI.Set` as it was issued: the key, the options it carried
and whether the store answered without error. -/
structure Write where
  key : String
  opts : SetOptions
  ok : Bool
  deriving DecidableEq, Repr

/-- What one run of `keep` leaves behind: the store, `serv.opts`, the calls it
issued in order, and the error sent on its result channel. -/
structure KeepResult (σ : Type) where
  store : σ
  opts : SetOptions
  writes : List Write
  err : Option String

/-- The loop of `keep` over `serv.key` (lines 86-97): write each key with the
current options; a success sets the guard to `PrevExist`, a failure sets it to
`PrevIgnore` and leaves the loop. -/
def keep {σ : Type} (kAPI : KeysAPI σ) : List String → σ → SetOptions → KeepResult σ
  | [], st, opts => { store := st, opts := opts, writes := [], err := none }
  | k :: ks, st, opts =>
    match kAPI.Set st k opts with
    | (st', none) =>
      let r := keep kAPI ks st' { opts with PrevExist := PrevExistType.PrevExist }
      { r with writes := { key := k, opts := opts, ok := true } :: r.writes }
    | (st', some e) =>
      { store := st', opts := { opts with PrevExist := PrevExistType.PrevIgnore },
        writes := [{ key := k, opts := opts, ok := false }], err := some e }

/-- A store that honours the existence guard, on the set of keys present: a
`PrevExist` write to an absent key is rejected and changes nothing, every
other write is accepted and leaves the key present. -/
def guardedStore : KeysAPI (List String) where
  Set := fun present k opts =>
    if opts.PrevExist = PrevExistType.PrevExist ∧ k ∉ present then
      (present, some "Key not found")
    else (if k ∈ present then present else k :: present, none)

/-- A store that answers from a script, whatever the key and the options: the
state is the list of answers still to give, `none` for success, and a store
whose script has run out accepts. -/
def scriptedStore : KeysAPI (List (Option String)) where
  Set := fun script _ _ =>
    match script with
    | [] => ([], none)
    | answer :: later => (later, answer)

/-- Check a list of issued writes against the store: starting from `st`, each
write gets from `kAPI.Set` the answer it records; the store state after the
last one. -/
def replay {σ : Type} (kAPI : KeysAPI σ) : σ → List Write → Option σ
  | st, [] => some st
  | st, w :: ws =>
    if (kAPI.Set st w.key w.opts).2.isNone = w.ok then
      replay kAPI (kAPI.Set st w.key w.opts).1 ws
    else none

/-! ## The supervisor loop (Register, lines 173-244) -/

/-- A call on the failure gate that changes it. -/
inductive GateCall where
  | Good
  | Bad
  deriving DecidableEq, Repr

/-- How the `select` of a probe tick (lines 224-236) ends: the 100 ms context
is done first, or the probe answers with an error, or with `nil`. -/
inductive ProbeResult where
  | deadline
  | failure
  | success
  deriving DecidableEq, Repr

/-- A case of the `select` of the loop other than cancellation: the heartbeat
ticker fired, or the probe ticker fired and its probe ended as given. -/
inductive Tick where
  | heartbeat
  | probe (r : ProbeResult)
  deriving DecidableEq, Repr

/-- The state a supervisor goroutine works on: the store it writes to,
`serv.opts`, the gate `chk`, and two records for stating properties, every
`kAPI.Set` call and every gate call made so far. -/
structure Supervisor (σ : Type) where
  store : σ
  opts : SetOptions
  chk : Fail
  writes : List Write
  gate : List GateCall

/-- The goroutine up to the loop (lines 184-200): the initial lease write with
the options `&etcd.SetOptions{TTL: service.TTL}`, then a fresh gate. -/
def start {σ : Type} (kAPI : KeysAPI σ) (key : List String) (ttl : Int) (st : σ) : Supervisor σ :=
  let r := keep kAPI key st { PrevExist := PrevExistType.PrevIgnore, TTL := ttl }
  { store := r.store, opts := r.opts, chk := NewFail MaxFailAttemps,
    writes := r.writes, gate := [] }

/-- The case `<-heartbeat.C` (lines 203-220): with the gate exhausted only
the guard is set; otherwise `keep` runs. Which case of the inner `select`
fires (lines 209-218) chooses the log line only; the effects on the store and
on `serv.opts` are those of `keep`, whose calls on an expired context answer
with an error. -/
def heartbeatTick {σ : Type} (kAPI : KeysAPI σ) (key : List String) (s : Supervisor σ) :
    Supervisor σ :=
  if !s.chk.Pass then
    { s with opts := { s.opts with PrevExist := PrevExistType.PrevIgnore } }
  else
    let r := keep kAPI key s.store s.opts
    { s with store := r.store, opts := r.opts, writes := s.writes ++ r.writes }

/-- The case `<-probe.C` (lines 222-237). -/
def probeTick {σ : Type} (s : Supervisor σ) : ProbeResult → Supervisor σ
  | ProbeResult.deadline => { s with chk := s.chk.Bad.1, gate := s.gate ++ [GateCall.Bad] }
  | ProbeResult.failure => { s with chk := s.chk.Bad.1, gate := s.gate ++ [GateCall.Bad] }
  | ProbeResult.success => { s with chk := s.chk.Good, gate := s.gate ++ [GateCall.Good] }

/-- One iteration of the loop `for yay := true; yay;`. -/
def step {σ : Type} (kAPI : KeysAPI σ) (key : List String) (s : Supervisor σ) :
    Tick → Supervisor σ
  | Tick.heartbeat => heartbeatTick kAPI key s
  | Tick.probe r => probeTick s r

/-- The loop on the ticks selected before the context is done. -/
def loop {σ : Type} (kAPI : KeysAPI σ) (key : List String) :
    Supervisor σ → List Tick → Supervisor σ
  | s, [] => s
  | s, t :: ts => loop kAPI key (step kAPI key s t) ts

/-- The results of the probe ticks among the ticks, in order. -/
def probeResults : List Tick → List ProbeResult
  | [] => []
  | Tick.heartbeat :: ts => probeResults ts
  | Tick.probe r :: ts => r :: probeResults ts

/-- The number of most recent probe ticks that all failed. -/
def failStreak (rs : List ProbeResult) : Nat :=
  (rs.reverse.takeWhile (fun r => decide (r ≠ ProbeResult.success))).length

/-- The single lease key of a service "web" with port 8080 advertised at
10.0.0.1. -/
def webKey : List String := ["web/10.0.0.1:8080"]

/-- A supervisor of `webKey` on a guard-honouring store that starts empty,
after its initial lease write and three failed probe ticks. -/
def exhaustedSupervisor : Supervisor (List String) :=
  loop guardedStore webKey (start guardedStore webKey 90 [])
    [Tick.probe ProbeResult.failure, Tick.probe ProbeResult.deadline,
     Tick.probe ProbeResult.failure]

/-- A service "web" without a port label whose container publishes two ports
on the wildcard address. -/
def twoPortService : Service :=
  { Hb := 60000000000, TTL := 90000000000, PHb := 5000000000, ProbeType := "mgo",
    ProbeEndpoint := "", Id := "0123456789abcdef", Srv := "web", Port := "",
    Net := [{ PrivatePort := 80, PublicPort := 8080, Typ := "tcp", IP := "0.0.0.0" },
            { PrivatePort := 443, PublicPort := 8443, Typ := "tcp", IP := "0.0.0.0" }],
    Proxy := [], ProxyCfg := "" }

/-- The lease keys of `twoPortService` advertised at 10.0.0.1. -/
def twoPortKey : List String := deriveKey "10.0.0.1" twoPortService

/-! ## The registry (Get, Place, Register, Suspend, Unregister) -/

/-- An entry of the table `Record`: the service name and the cancel function,
which is the index in `Registry.tasks` of the goroutine it cancels. -/
structure RunningRecord where
  Srv : String
  Abort : Nat
  deriving DecidableEq, Repr

/-- A supervisor goroutine started at line 173: the `srv` value it works on and
whether its context `c` has been cancelled. -/
structure Task (δ : Type) where
  service : Service
  key : List String
  driver : δ
  cancelled : Bool
  deriving DecidableEq, Repr

/-- The package state: the table `Record`, the descriptor store `rec` (field `rec_`), and the
supervisor goroutines started so far. -/
structure Registry (δ : Type) where
  Record : String → Option RunningRecord
  rec_ : String → Option Service
  tasks : List (Task δ)

/-- The process-wide settings read by `Register`: the advertise address and
the allocator lookup `AllocHelper`, neither of which is declared in the
sources; `AllocHelper probeType endpoint` is `alloc(endpoint)`. -/
structure Config (δ : Type) where
  Advertise : String
  AllocHelper : String → String → Except String δ

/-- How a call ends: it returns, or it panics; both carry the package state
at that point. -/
inductive Outcome (δ : Type) where
  | returned (r : Registry δ)
  | panicked (r : Registry δ)

/-- The package state an outcome carries. -/
def Outcome.registry {δ : Type} : Outcome δ → Registry δ
  | Outcome.returned r => r
  | Outcome.panicked r => r

/-- Whether the call came back without a panic. -/
def Outcome.isReturned {δ : Type} : Outcome δ → Bool
  | Outcome.returned _ => true
  | Outcome.panicked _ => false

/-- The registry of a process that has handled no event yet. -/
def Registry.empty {δ : Type} : Registry δ :=
  { Record := fun _ => none, rec_ := fun _ => none, tasks := [] }

/-- Cancel the context of the goroutine with the given index. -/
def cancelAt {δ : Type} : List (Task δ) → Nat → List (Task δ)
  | [], _ => []
  | t :: ts, 0 => { t with cancelled := true } :: ts
  | t :: ts, n + 1 => t :: cancelAt ts n

/-- The call `r.Abort()` on a table entry. -/
def RunningRecord.abort {δ : Type} (rr : RunningRecord) (r : Registry δ) : Registry δ :=
  { r with tasks := cancelAt r.tasks rr.Abort }

/-- The function `Get` (lines 116-119). -/
def Get {δ : Type} (r : Registry δ) (iden : String) : Option Service :=
  r.rec_ iden

/-- The function `Register` (lines 129-247). The slice `serv.Id[:12]` of line
141 panics on an id shorter than 12 bytes and `serv.key[0]` of lines 158-160
on an empty key list; an allocator error returns at line 167; otherwise the
goroutine is started and recorded at line 246. -/
def Register {δ : Type} (cfg : Config δ) (r : Registry δ) (service : Service) : Outcome δ :=
  let alloc := cfg.AllocHelper service.ProbeType
  if service.Id.utf8ByteSize < 12 then Outcome.panicked r
  else
    let key := deriveKey cfg.Advertise service
    match endpoint service.ProbeEndpoint key with
    | none => Outcome.panicked r
    | some ep =>
      match alloc ep with
      | Except.error _ => Outcome.returned r
      | Except.ok driver =>
        Outcome.returned
          { r with
            tasks := r.tasks ++
              [{ service := service, key := key, driver := driver, cancelled := false }]
            Record := Function.update r.Record service.Id
              (some { Srv := service.Srv, Abort := r.tasks.length }) }

/-- The function `Place` (lines 121-127). -/
def Place {δ : Type} (cfg : Config δ) (r : Registry δ) (service : Service) : Outcome δ :=
  let r1 := match r.Record service.Id with
    | some rr => rr.abort r
    | none => r
  let r2 := { r1 with rec_ := Function.update r1.rec_ service.Id (some service) }
  Register cfg r2 service

/-- The function `Suspend` (lines 249-253). -/
def Suspend {δ : Type} (r : Registry δ) (iden : String) : Outcome δ :=
  match r.Record iden with
  | some rr => Outcome.returned (rr.abort r)
  | none => Outcome.returned r

/-- The function `Unregister` (lines 255-262); the slice `iden[:12]` of its log
line panics on an id shorter than 12 bytes, after the entries are removed. -/
def Unregister {δ : Type} (r : Registry δ) (iden : String) : Outcome δ :=
  match r.Record iden with
  | some rr =>
    let r1 := { r with Record := Function.update r.Record iden none }
    let r2 := rr.abort r1
    let r3 := { r2 with rec_ := Function.update r2.rec_ iden none }
    if iden.utf8ByteSize < 12 then Outcome.panicked r3 else Outcome.returned r3
  | none => Outcome.returned r

/-- A call of the inbound interface. -/
inductive Call where
  | Place (service : Service)
  | Suspend (iden : String)
  | Unregister (iden : String)

/-- One call on the package state. -/
def Call.apply {δ : Type} (cfg : Config δ) (r : Registry δ) : Call → Outcome δ
  | Call.Place service => Upkeep.Place cfg r service
  | Call.Suspend iden => Upkeep.Suspend r iden
  | Call.Unregister iden => Upkeep.Unregister r iden

/-- Calls applied one after another; a panic ends the process, so the calls
after it are not made. -/
def run {δ : Type} (cfg : Config δ) : Registry δ → List Call → Outcome δ
  | r, [] => Outcome.returned r
  | r, c :: cs =>
    match c.apply cfg r with
    | Outcome.returned r1 => run cfg r1 cs
    | Outcome.panicked r1 => Outcome.panicked r1

/-- The bookkeeping invariant of the two tables: every entry of `Record` is
keyed by an id of at least 12 bytes and holds the index of a started
goroutine, and every goroutine whose context is not cancelled is the one
recorded under its container id. -/
def Registry.Inv {δ : Type} (r : Registry δ) : Prop :=
  (∀ (id : String) (rr : RunningRecord), r.Record id = some rr →
    rr.Abort < r.tasks.length ∧ 12 ≤ id.utf8ByteSize) ∧
  (∀ (h : Nat) (t : Task δ), r.tasks[h]? = some t → t.cancelled = false →
    ∃ rr, r.Record t.service.Id = some rr ∧ rr.Abort = h)

/-- No goroutine started for the container id has a live context. -/
def Registry.NoActive {δ : Type} (r : Registry δ) (id : String) : Prop :=
  ∀ (h : Nat) (t : Task δ), r.tasks[h]? = some t → t.service.Id = id → t.cancelled = true

/-! ## Probe families (cmd/command.go) -/

/-- The allocator installed by `tcp` (command.go, lines 43-45). -/
def tcpAllocDriver {δ : Type} : String → Except String δ :=
  fun _ => Except.error "Not yet implemented"

/-- A process run with the "tcp" probe family, advertised at 10.0.0.1: every
probe type resolves to the allocator installed by `tcp`. -/
def tcpConfig : Config Unit :=
  { Advertise := "10.0.0.1", AllocHelper := fun _ => tcpAllocDriver }

/-- A process run whose allocator yields a driver for every endpoint; the
driver is represented by the endpoint it was allocated for. -/
def echoConfig : Config String :=
  { Advertise := "10.0.0.1", AllocHelper := fun _ ep => Except.ok ep }

/-- A service "web" with the port label 8080 and no probe endpoint. -/
def webService : Service :=
  { Hb := 60000000000, TTL := 90000000000, PHb := 5000000000, ProbeType := "tcp",
    ProbeEndpoint := "", Id := "0123456789abcdef", Srv := "web", Port := "8080",
    Net := [], Proxy := [], ProxyCfg := "" }

/-- The service `webService` with the probe endpoint "health". -/
def healthService : Service :=
  { webService with ProbeEndpoint := "health" }

/-- A service "web" without a port label whose container publishes one port,
bound to the loopback address. -/
def loopbackService : Service :=
  { webService with
    Port := "",
    Net := [{ PrivatePort := 9090, PublicPort := 9090, Typ := "tcp", IP := "127.0.0.1" }] }

/-! ## Container validation (main.go, NewRecord) -/

/-- The loop of lines 158-163: the number of mappings with a public port. -/
def countOpen (Net : List APIPort) : Nat :=
  Net.foldl (fun opened net => if net.PublicPort ≠ 0 then opened + 1 else opened) 0

/-- The checks of `NewRecord` (main.go, lines 149-168): `false` where the
function logs "not tracking container" and returns, `true` where it goes on to
build the service. -/
def NewRecordTracks (Srv Port : String) (Net : List APIPort) : Bool :=
  if Srv = "" then false
  else if Port = "" then
    if Net.length = 0 then false
    else if countOpen Net = 0 then false
    else true
  else true

/-- An advertisable port in the sense of the specification: an explicit port,
or a mapping with a nonzero public port bound to the wildcard address. -/
def Advertisable (Port : String) (Net : List APIPort) : Prop :=
  Port ≠ "" ∨ ∃ p ∈ Net, p.PublicPort ≠ 0 ∧ p.IP = "0.0.0.0"

/-! ## Key derivation -/

theorem foldl_appendNetKey (srv advertise : String) (net : List APIPort) (acc : List String) :
    net.foldl (appendNetKey srv advertise) acc =
      acc ++ (net.filter (fun p => decide (p.PublicPort ≠ 0) && decide (p.IP = "0.0.0.0"))).map
        (fun p => srv ++ "/" ++ advertise ++ ":" ++ fmtInt p.PublicPort) := by
  induction net generalizing acc with
  | nil => simp
  | cons p ps ih =>
    rw [List.foldl_cons, ih]
    by_cases h : p.PublicPort ≠ 0 ∧ p.IP = "0.0.0.0"
    · have hf : (decide (p.PublicPort ≠ 0) && decide (p.IP = "0.0.0.0")) = true := by
        simp [h.1, h.2]
      simp [appendNetKey, h, List.filter_cons, hf, sprintfKey]
    · have hf : (decide (p.PublicPort ≠ 0) && decide (p.IP = "0.0.0.0")) = false := by
        rcases not_and_or.mp h with h1 | h2
        · simp [not_not.mp h1]
        · simp [h2]
      simp [appendNetKey, h, List.filter_cons, hf]

theorem sprintfKey_web (advertise port : String) :
    sprintfKey "web" advertise port = "web/" ++ advertise ++ (":" ++ port) := by
  have h : ("web" : String) ++ "/" = "web/" := by decide
  simp only [sprintfKey, h, String.append_assoc]

theorem deriveKey_ref (advertise : String) (service : Service) :
    deriveKey advertise service = deriveKeyRef advertise service := by
  unfold deriveKey deriveKeyRef
  by_cases hp : service.Port ≠ ""
  · simp [hp, sprintfKey]
  · rw [if_neg hp, if_neg hp]
    by_cases hn : service.Net.length > 0
    · rw [if_pos hn, foldl_appendNetKey]
      simp
    · rw [if_neg hn]
      have hnil : service.Net = [] := by
        cases hN : service.Net with
        | nil => rfl
        | cons x xs => rw [hN] at hn; simp at hn
      simp [hnil]

/-- C1: the lease keys Register derives are those of the reference derivation:
exactly one key "Srv/Advertise:Port" for a non-empty Port, whatever Net holds,
and otherwise, in Net order, one key "Srv/Advertise:PublicPort" per mapping with
PublicPort != 0 and IP == "0.0.0.0"; the two descriptors of the specification
both give exactly ["web/Advertise:8080"]. -/
theorem deriveKey_eq_deriveKeyRef :
    (∀ (advertise : String) (service : Service),
      deriveKey advertise service = deriveKeyRef advertise service) ∧
    (∀ (advertise : String) (service : Service),
      deriveKey advertise { service with Srv := "web", Port := "8080" } =
        ["web/" ++ advertise ++ ":8080"]) ∧
    (∀ (advertise : String) (service : Service) (a b c : Int) (ta tb tc : String),
      deriveKey advertise
        { service with
          Srv := "web", Port := "",
          Net := [{ PrivatePort := a, PublicPort := 8080, Typ := ta, IP := "0.0.0.0" },
                  { PrivatePort := b, PublicPort := 0, Typ := tb, IP := "0.0.0.0" },
                  { PrivatePort := c, PublicPort := 9090, Typ := tc, IP := "127.0.0.1" }] } =
        ["web/" ++ advertise ++ ":8080"]) := by
  refine ⟨deriveKey_ref, ?_, ?_⟩
  · intro advertise service
    have hp : ("8080" : String) ≠ "" := by decide
    have h2 : (":" : String) ++ "8080" = ":8080" := by decide
    simp only [deriveKey, hp, if_true, ne_eq, not_false_eq_true, List.nil_append,
      sprintfKey_web, h2]
  · intro advertise service a b c ta tb tc
    have h1 : ("127.0.0.1" : String) ≠ "0.0.0.0" := by decide
    have h2 : fmtInt 8080 = "8080" := by decide
    have h3 : (":" : String) ++ "8080" = ":8080" := by decide
    simp [deriveKey, appendNetKey, h1, h2, h3, sprintfKey_web]

/-! ## The lease write cycle -/

theorem keep_cons_ok {σ : Type} (kAPI : KeysAPI σ) (k : String) (ks : List String) (st st' : σ)
    (opts : SetOptions) (h : kAPI.Set st k opts = (st', none)) :
    keep kAPI (k :: ks) st opts =
      { keep kAPI ks st' { opts with PrevExist := PrevExistType.PrevExist } with
        writes := { key := k, opts := opts, ok := true } ::
          (keep kAPI ks st' { opts with PrevExist := PrevExistType.PrevExist }).writes } := by
  simp only [keep, h]

theorem keep_cons_err {σ : Type} (kAPI : KeysAPI σ) (k : String) (ks : List String) (st st' : σ)
    (opts : SetOptions) (e : String) (h : kAPI.Set st k opts = (st', some e)) :
    keep kAPI (k :: ks) st opts =
      { store := st', opts := { opts with PrevExist := PrevExistType.PrevIgnore },
        writes := [{ key := k, opts := opts, ok := false }], err := some e } := by
  simp only [keep, h]

theorem keep_cases {σ : Type} (kAPI : KeysAPI σ) (k : String) (st : σ) (opts : SetOptions) :
    (∃ st', kAPI.Set st k opts = (st', none)) ∨ (∃ st' e, kAPI.Set st k opts = (st', some e)) := by
  rcases h : kAPI.Set st k opts with ⟨st', _ | e⟩
  · exact Or.inl ⟨st', rfl⟩
  · exact Or.inr ⟨st', e, rfl⟩

theorem keep_writes_keys {σ : Type} (kAPI : KeysAPI σ) (key : List String) (st : σ)
    (opts : SetOptions) :
    (keep kAPI key st opts).writes.map Write.key =
      key.take (keep kAPI key st opts).writes.length := by
  induction key generalizing st opts with
  | nil => simp [keep]
  | cons k ks ih =>
    rcases keep_cases kAPI k st opts with ⟨st', h⟩ | ⟨st', e, h⟩
    · rw [keep_cons_ok kAPI k ks st st' opts h]
      simp [ih]
    · rw [keep_cons_err kAPI k ks st st' opts e h]
      simp

theorem keep_writes_length_le {σ : Type} (kAPI : KeysAPI σ) (key : List String) (st : σ)
    (opts : SetOptions) : (keep kAPI key st opts).writes.length ≤ key.length := by
  have h := congrArg List.length (keep_writes_keys kAPI key st opts)
  simp at h
  omega

theorem keep_replay {σ : Type} (kAPI : KeysAPI σ) (key : List String) (st : σ)
    (opts : SetOptions) :
    replay kAPI st (keep kAPI key st opts).writes = some (keep kAPI key st opts).store := by
  induction key generalizing st opts with
  | nil => simp [keep, replay]
  | cons k ks ih =>
    rcases keep_cases kAPI k st opts with ⟨st', h⟩ | ⟨st', e, h⟩
    · rw [keep_cons_ok kAPI k ks st st' opts h]
      simp [replay, h, ih]
    · rw [keep_cons_err kAPI k ks st st' opts e h]
      simp [replay, h]

theorem keep_all_but_last_ok {σ : Type} (kAPI : KeysAPI σ) (key : List String) (st : σ)
    (opts : SetOptions) (i : Nat) (w : Write)
    (hw : (keep kAPI key st opts).writes[i]? = some w)
    (hi : i + 1 < (keep kAPI key st opts).writes.length) : w.ok = true := by
  induction key generalizing st opts i with
  | nil => simp [keep] at hw
  | cons k ks ih =>
    rcases keep_cases kAPI k st opts with ⟨st', h⟩ | ⟨st', e, h⟩
    · rw [keep_cons_ok kAPI k ks st st' opts h] at hw hi
      cases i with
      | zero => simp at hw; rw [← hw]
      | succ j =>
        simp only [List.getElem?_cons_succ] at hw
        simp only [List.length_cons] at hi
        exact ih st' _ j hw (by omega)
    · rw [keep_cons_err kAPI k ks st st' opts e h] at hi
      simp at hi

theorem keep_short_last_failed {σ : Type} (kAPI : KeysAPI σ) (key : List String) (st : σ)
    (opts : SetOptions) (hlen : (keep kAPI key st opts).writes.length < key.length) :
    ∃ w, (keep kAPI key st opts).writes.getLast? = some w ∧ w.ok = false := by
  induction key generalizing st opts with
  | nil => simp at hlen
  | cons k ks ih =>
    rcases keep_cases kAPI k st opts with ⟨st', h⟩ | ⟨st', e, h⟩
    · rw [keep_cons_ok kAPI k ks st st' opts h] at hlen ⊢
      simp only [List.length_cons, add_lt_add_iff_right] at hlen
      obtain ⟨w, hw, hok⟩ := ih st' _ hlen
      refine ⟨w, ?_, hok⟩
      cases hws : (keep kAPI ks st' { opts with PrevExist := PrevExistType.PrevExist }).writes with
      | nil => rw [hws] at hw; simp at hw
      | cons x xs =>
        rw [hws] at hw
        simpa [List.getLast?_cons_cons] using hw
    · rw [keep_cons_err kAPI k ks st st' opts e h]
      exact ⟨_, rfl, rfl⟩

theorem keep_guards {σ : Type} (kAPI : KeysAPI σ) (key : List String) (st : σ)
    (opts : SetOptions) (i : Nat) (w : Write)
    (hw : (keep kAPI key st opts).writes[i]? = some w) :
    w.opts = { opts with
      PrevExist := if i = 0 then opts.PrevExist else PrevExistType.PrevExist } := by
  induction key generalizing st opts i with
  | nil => simp [keep] at hw
  | cons k ks ih =>
    rcases keep_cases kAPI k st opts with ⟨st', h⟩ | ⟨st', e, h⟩
    · rw [keep_cons_ok kAPI k ks st st' opts h] at hw
      cases i with
      | zero => simp at hw; rw [← hw]; simp
      | succ j =>
        simp only [List.getElem?_cons_succ] at hw
        have := ih st' _ j hw
        rw [this]
        by_cases hj : j = 0 <;> simp [hj]
    · rw [keep_cons_err kAPI k ks st st' opts e h] at hw
      cases i with
      | zero => simp at hw; rw [← hw]; simp
      | succ j => simp at hw

theorem keep_final_guard {σ : Type} (kAPI : KeysAPI σ) (key : List String) (st : σ)
    (opts : SetOptions) :
    ((keep kAPI key st opts).writes ≠ [] →
      (∀ w ∈ (keep kAPI key st opts).writes, w.ok = true) →
        (keep kAPI key st opts).opts.PrevExist = PrevExistType.PrevExist) ∧
    ((∃ w ∈ (keep kAPI key st opts).writes, w.ok = false) →
      (keep kAPI key st opts).opts.PrevExist = PrevExistType.PrevIgnore) := by
  induction key generalizing st opts with
  | nil => simp [keep]
  | cons k ks ih =>
    rcases keep_cases kAPI k st opts with ⟨st', h⟩ | ⟨st', e, h⟩
    · rw [keep_cons_ok kAPI k ks st st' opts h]
      obtain ⟨ih1, ih2⟩ := ih st' { opts with PrevExist := PrevExistType.PrevExist }
      constructor
      · intro _ hall
        cases hks : ks with
        | nil => simp [keep]
        | cons k2 ks2 =>
          have hne : (keep kAPI ks st' { opts with PrevExist := PrevExistType.PrevExist }).writes
              ≠ [] := by
            rw [hks]
            rcases keep_cases kAPI k2 st' { opts with PrevExist := PrevExistType.PrevExist }
              with ⟨s2, h2⟩ | ⟨s2, e2, h2⟩
            · rw [keep_cons_ok kAPI k2 ks2 st' s2 _ h2]; simp
            · rw [keep_cons_err kAPI k2 ks2 st' s2 _ e2 h2]; simp
          rw [← hks]
          exact ih1 hne (fun w hw => hall w (List.mem_cons_of_mem _ hw))
      · rintro ⟨w, hw, hok⟩
        simp only [List.mem_cons] at hw
        rcases hw with rfl | hw
        · simp at hok
        · exact ih2 ⟨w, hw, hok⟩
    · rw [keep_cons_err kAPI k ks st st' opts e h]
      simp

/-- C2: one run of keep writes the lease keys in order, each answer being the
store's; every write but the last succeeded, and the run stops before the end
of the key list only after a failed write, so it writes up to and including the
first key whose write fails and no key after it; the first write carries the
initial guard and every later one the guard PrevExist left by the successful
write before it; the guard ends at PrevExist when a write was issued and all
succeeded, and at PrevIgnore when a write failed. -/
theorem keep_write_cycle {σ : Type} (kAPI : KeysAPI σ) (key : List String) (st : σ)
    (opts : SetOptions) :
    (keep kAPI key st opts).writes.map Write.key =
      key.take (keep kAPI key st opts).writes.length ∧
    replay kAPI st (keep kAPI key st opts).writes = some (keep kAPI key st opts).store ∧
    (∀ (i : Nat) (w : Write), (keep kAPI key st opts).writes[i]? = some w →
      i + 1 < (keep kAPI key st opts).writes.length → w.ok = true) ∧
    ((keep kAPI key st opts).writes.length < key.length →
      ∃ w, (keep kAPI key st opts).writes.getLast? = some w ∧ w.ok = false) ∧
    (∀ (i : Nat) (w : Write), (keep kAPI key st opts).writes[i]? = some w →
      w.opts = { opts with
        PrevExist := if i = 0 then opts.PrevExist else PrevExistType.PrevExist }) ∧
    ((keep kAPI key st opts).writes ≠ [] →
      (∀ w ∈ (keep kAPI key st opts).writes, w.ok = true) →
        (keep kAPI key st opts).opts.PrevExist = PrevExistType.PrevExist) ∧
    ((∃ w ∈ (keep kAPI key st opts).writes, w.ok = false) →
      (keep kAPI key st opts).opts.PrevExist = PrevExistType.PrevIgnore) :=
  ⟨keep_writes_keys kAPI key st opts, keep_replay kAPI key st opts,
    fun i w hw hi => keep_all_but_last_ok kAPI key st opts i w hw hi,
    keep_short_last_failed kAPI key st opts,
    fun i w hw => keep_guards kAPI key st opts i w hw,
    (keep_final_guard kAPI key st opts).1, (keep_final_guard kAPI key st opts).2⟩

/-! ## The supervisor loop -/

theorem loop_append {σ : Type} (kAPI : KeysAPI σ) (key : List String) (s : Supervisor σ)
    (ts us : List Tick) :
    loop kAPI key s (ts ++ us) = loop kAPI key (loop kAPI key s ts) us := by
  induction ts generalizing s with
  | nil => rfl
  | cons t ts ih => exact ih (step kAPI key s t)

theorem probeResults_append (ts us : List Tick) :
    probeResults (ts ++ us) = probeResults ts ++ probeResults us := by
  induction ts with
  | nil => rfl
  | cons t ts ih =>
    cases t with
    | heartbeat => simpa [probeResults] using ih
    | probe r => simpa [probeResults] using ih

theorem heartbeatTick_chk {σ : Type} (kAPI : KeysAPI σ) (key : List String) (s : Supervisor σ) :
    (heartbeatTick kAPI key s).chk = s.chk ∧ (heartbeatTick kAPI key s).gate = s.gate := by
  unfold heartbeatTick
  split <;> simp

theorem failStreak_snoc (rs : List ProbeResult) (r : ProbeResult) :
    failStreak (rs ++ [r]) = if r = ProbeResult.success then 0 else failStreak rs + 1 := by
  cases r <;> simp [failStreak, List.takeWhile]

theorem loop_gate {σ : Type} (kAPI : KeysAPI σ) (key : List String) (s : Supervisor σ)
    (ticks : List Tick) :
    (loop kAPI key s ticks).gate = s.gate ++ (probeResults ticks).map
      (fun r => if r = ProbeResult.success then GateCall.Good else GateCall.Bad) := by
  induction ticks generalizing s with
  | nil => simp [loop, probeResults]
  | cons t ts ih =>
    cases t with
    | heartbeat =>
      simp only [loop, step, probeResults, ih, (heartbeatTick_chk kAPI key s).2]
    | probe r =>
      cases r <;> simp [loop, step, probeResults, ih, probeTick]

theorem loop_chk {σ : Type} (kAPI : KeysAPI σ) (key : List String) (s : Supervisor σ)
    (hs : s.chk = NewFail MaxFailAttemps) (ticks : List Tick) :
    (loop kAPI key s ticks).chk =
      { count := failStreak (probeResults ticks), max := MaxFailAttemps } := by
  induction ticks using List.reverseRecOn with
  | nil => simp [loop, probeResults, failStreak, hs, NewFail]
  | append_singleton ts t ih =>
    rw [loop_append]
    cases t with
    | heartbeat =>
      simp only [loop, step, (heartbeatTick_chk kAPI key _).1, ih, probeResults_append,
        probeResults, List.append_nil]
    | probe r =>
      rw [probeResults_append]
      simp only [probeResults, failStreak_snoc]
      cases r <;> simp [loop, step, probeTick, ih, Fail.Bad, Fail.Good]

theorem three_le_failStreak (rs : List ProbeResult) :
    3 ≤ failStreak rs ↔
      ∃ a b c rest, rs.reverse = a :: b :: c :: rest ∧ a ≠ ProbeResult.success ∧
        b ≠ ProbeResult.success ∧ c ≠ ProbeResult.success := by
  unfold failStreak
  rcases rs.reverse with _ | ⟨a, _ | ⟨b, _ | ⟨c, rest⟩⟩⟩
  · simp
  · cases a <;> simp [List.takeWhile]
  · cases a <;> cases b <;> simp [List.takeWhile]
  · cases a <;> cases b <;> cases c <;> simp [List.takeWhile] <;>
      exact ⟨_, _, _, ⟨rfl, rfl, rfl⟩, by simp, by simp, by simp⟩

theorem heartbeatTick_of_not_pass {σ : Type} (kAPI : KeysAPI σ) (key : List String)
    (s : Supervisor σ) (h : s.chk.Pass = false) :
    heartbeatTick kAPI key s =
      { s with opts := { s.opts with PrevExist := PrevExistType.PrevIgnore } } := by
  simp [heartbeatTick, h]

/-- C4, as the code has it: on a heartbeat tick at which the gate is exhausted
the supervisor sets the guard to PrevIgnore and does nothing else in that
tick: it issues no lease write and the store, the gate and the TTL stay as
they were. -/
theorem heartbeatTick_exhausted {σ : Type} (kAPI : KeysAPI σ) (key : List String)
    (s : Supervisor σ) (h : s.chk.Pass = false) :
    (heartbeatTick kAPI key s).opts.PrevExist = PrevExistType.PrevIgnore ∧
    (heartbeatTick kAPI key s).writes = s.writes ∧
    heartbeatTick kAPI key s =
      { s with opts := { s.opts with PrevExist := PrevExistType.PrevIgnore } } := by
  rw [heartbeatTick_of_not_pass kAPI key s h]
  exact ⟨rfl, rfl, rfl⟩

/-- C4, witness: the supervisor of `webKey` after three failed probes. -/
theorem heartbeatTick_exhausted_witness :
    (heartbeatTick guardedStore webKey exhaustedSupervisor).opts.PrevExist =
        PrevExistType.PrevIgnore ∧
    (heartbeatTick guardedStore webKey exhaustedSupervisor).writes =
        exhaustedSupervisor.writes ∧
    heartbeatTick guardedStore webKey exhaustedSupervisor =
      { exhaustedSupervisor with
        opts := { exhaustedSupervisor.opts with PrevExist := PrevExistType.PrevIgnore } } :=
  heartbeatTick_exhausted guardedStore webKey exhaustedSupervisor (by decide)

/-- C4, counterexample: the supervisor of the one key "web/10.0.0.1:8080" has
issued its initial write and then seen three failed probes; its gate is
exhausted, and the heartbeat tick that follows issues no write at all, the
record of writes still holding the initial write only. -/
theorem heartbeatTick_exhausted_no_write :
    webKey ≠ [] ∧
    exhaustedSupervisor.chk.Pass = false ∧
    exhaustedSupervisor.writes =
      [{ key := "web/10.0.0.1:8080", opts := { PrevExist := PrevExistType.PrevIgnore, TTL := 90 },
         ok := true }] ∧
    (heartbeatTick guardedStore webKey exhaustedSupervisor).writes =
      exhaustedSupervisor.writes := by
  decide

/-- C10: with the gate modelled from the specification, a probe tick that ends
with the deadline or a driver error makes exactly the one gate call Bad, one
that ends with success the one call Good, and a heartbeat tick none; so, from a
supervisor's start, the gate is exhausted after a run of ticks exactly when the
three most recent probe ticks exist and all failed. After three failed probes
the gate is exhausted, the next heartbeat tick sets the guard to PrevIgnore, and
one more successful probe makes the gate pass again. -/
theorem gate_tracks_probe_ticks :
    (∀ (σ : Type) (s : Supervisor σ) (r : ProbeResult),
      (probeTick s r).gate =
          s.gate ++ [if r = ProbeResult.success then GateCall.Good else GateCall.Bad] ∧
      (probeTick s r).chk =
          if r = ProbeResult.success then s.chk.Good else s.chk.Bad.1) ∧
    (∀ (σ : Type) (kAPI : KeysAPI σ) (key : List String) (s : Supervisor σ) (ticks : List Tick),
      (loop kAPI key s ticks).gate = s.gate ++ (probeResults ticks).map
        (fun r => if r = ProbeResult.success then GateCall.Good else GateCall.Bad)) ∧
    (∀ (σ : Type) (kAPI : KeysAPI σ) (key : List String) (ttl : Int) (st : σ)
        (ticks : List Tick),
      (loop kAPI key (start kAPI key ttl st) ticks).chk.Pass = false ↔
        ∃ a b c rest, (probeResults ticks).reverse = a :: b :: c :: rest ∧
          a ≠ ProbeResult.success ∧ b ≠ ProbeResult.success ∧ c ≠ ProbeResult.success) ∧
    (∀ (σ : Type) (kAPI : KeysAPI σ) (key : List String) (ttl : Int) (st : σ)
        (r1 r2 r3 : ProbeResult),
      r1 ≠ ProbeResult.success → r2 ≠ ProbeResult.success → r3 ≠ ProbeResult.success →
        (loop kAPI key (start kAPI key ttl st)
          [Tick.probe r1, Tick.probe r2, Tick.probe r3]).chk.Pass = false ∧
        (loop kAPI key (start kAPI key ttl st)
          [Tick.probe r1, Tick.probe r2, Tick.probe r3, Tick.heartbeat]).opts.PrevExist =
            PrevExistType.PrevIgnore ∧
        (loop kAPI key (start kAPI key ttl st)
          [Tick.probe r1, Tick.probe r2, Tick.probe r3, Tick.heartbeat,
           Tick.probe ProbeResult.success]).chk.Pass = true) := by
  have hpass : ∀ (σ : Type) (kAPI : KeysAPI σ) (key : List String) (ttl : Int) (st : σ)
      (ticks : List Tick),
      (loop kAPI key (start kAPI key ttl st) ticks).chk.Pass = false ↔
        3 ≤ failStreak (probeResults ticks) := by
    intro σ kAPI key ttl st ticks
    rw [loop_chk kAPI key (start kAPI key ttl st) rfl ticks]
    simp [Fail.Pass, MaxFailAttemps]
  refine ⟨?_, ?_, ?_, ?_⟩
  · intro σ s r
    cases r <;> simp [probeTick]
  · intro σ kAPI key s ticks
    exact loop_gate kAPI key s ticks
  · intro σ kAPI key ttl st ticks
    rw [hpass, three_le_failStreak]
  · intro σ kAPI key ttl st r1 r2 r3 h1 h2 h3
    refine ⟨?_, ?_, ?_⟩
    · rw [hpass, three_le_failStreak]
      exact ⟨r3, r2, r1, [], by simp [probeResults], h3, h2, h1⟩
    · have hex : (loop kAPI key (start kAPI key ttl st)
          [Tick.probe r1, Tick.probe r2, Tick.probe r3]).chk.Pass = false := by
        rw [hpass, three_le_failStreak]
        exact ⟨r3, r2, r1, [], by simp [probeResults], h3, h2, h1⟩
      have happ := loop_append kAPI key (start kAPI key ttl st)
        [Tick.probe r1, Tick.probe r2, Tick.probe r3] [Tick.heartbeat]
      simp only [List.cons_append, List.nil_append] at happ
      rw [happ]
      show (heartbeatTick kAPI key (loop kAPI key (start kAPI key ttl st)
          [Tick.probe r1, Tick.probe r2, Tick.probe r3])).opts.PrevExist =
            PrevExistType.PrevIgnore
      rw [heartbeatTick_of_not_pass kAPI key _ hex]
    · have hne : ¬ ((loop kAPI key (start kAPI key ttl st)
          [Tick.probe r1, Tick.probe r2, Tick.probe r3, Tick.heartbeat,
           Tick.probe ProbeResult.success]).chk.Pass = false) := by
        rw [hpass, three_le_failStreak]
        rintro ⟨a, b, c, rest, hrev, ha, _, _⟩
        simp [probeResults] at hrev
        exact ha hrev.1.symm
      simpa using hne

/-! ## Several lease keys on a store that honours the guard -/

theorem keep_guarded_second_absent (k0 k1 : String) (rest : List String) (hne : k1 ≠ k0)
    (st : List String) (opts : SetOptions) (hst : k1 ∉ st) :
    k1 ∉ (keep guardedStore (k0 :: k1 :: rest) st opts).store ∧
    ∀ w ∈ (keep guardedStore (k0 :: k1 :: rest) st opts).writes, w.key = k1 → w.ok = false := by
  by_cases hc : opts.PrevExist = PrevExistType.PrevExist ∧ k0 ∉ st
  · have h : guardedStore.Set st k0 opts = (st, some "Key not found") := by
      simp [guardedStore, hc.1, hc.2]
    rw [keep_cons_err guardedStore k0 _ st st opts _ h]
    refine ⟨hst, ?_⟩
    intro w hw hk
    simp only [List.mem_singleton] at hw
    rw [hw]
  · have h : guardedStore.Set st k0 opts = (if k0 ∈ st then st else k0 :: st, none) := by
      simp only [guardedStore, if_neg hc]
    have hst' : k1 ∉ (if k0 ∈ st then st else k0 :: st) := by
      split
      · exact hst
      · simp [hne, hst]
    have h2 : guardedStore.Set (if k0 ∈ st then st else k0 :: st) k1
        { opts with PrevExist := PrevExistType.PrevExist } =
          (if k0 ∈ st then st else k0 :: st, some "Key not found") := by
      simp [guardedStore, hst']
    rw [keep_cons_ok guardedStore k0 _ st _ opts h, keep_cons_err guardedStore k1 _ _ _ _ _ h2]
    refine ⟨hst', ?_⟩
    intro w hw hk
    simp only [List.mem_cons, List.mem_singleton, List.not_mem_nil, or_false] at hw
    rcases hw with rfl | rfl
    · exact absurd hk.symm hne
    · rfl

theorem loop_guarded_second_absent (k0 k1 : String) (rest : List String) (hne : k1 ≠ k0)
    (s : Supervisor (List String)) (hst : k1 ∉ s.store)
    (hw : ∀ w ∈ s.writes, w.key = k1 → w.ok = false) (ticks : List Tick) :
    k1 ∉ (loop guardedStore (k0 :: k1 :: rest) s ticks).store ∧
    ∀ w ∈ (loop guardedStore (k0 :: k1 :: rest) s ticks).writes, w.key = k1 → w.ok = false := by
  induction ticks generalizing s with
  | nil => exact ⟨hst, hw⟩
  | cons t ts ih =>
    cases t with
    | heartbeat =>
      have hstep : step guardedStore (k0 :: k1 :: rest) s Tick.heartbeat =
          heartbeatTick guardedStore (k0 :: k1 :: rest) s := rfl
      by_cases hp : s.chk.Pass = false
      · apply ih
        · rw [hstep, heartbeatTick_of_not_pass _ _ _ hp]
          exact hst
        · rw [hstep, heartbeatTick_of_not_pass _ _ _ hp]
          exact hw
      · have hk := keep_guarded_second_absent k0 k1 rest hne s.store s.opts hst
        have hpt : s.chk.Pass = true := by simpa using hp
        apply ih
        · rw [hstep]
          simp only [heartbeatTick, hpt]
          exact hk.1
        · rw [hstep]
          simp only [heartbeatTick, hpt]
          intro w hmem hkey
          rcases List.mem_append.mp hmem with hmem | hmem
          · exact hw w hmem hkey
          · exact hk.2 w hmem hkey
    | probe r =>
      apply ih
      · cases r <;> exact hst
      · cases r <;> exact hw

/-- C3, the code at a failing input: the supervisor of the two keys of
`twoPortService`, on a guard-honouring store that starts empty. Its initial
cycle writes the first key, is refused the second one and stops, and whatever
ticks follow, the second key is absent from the store and no write to it has
succeeded. -/
theorem second_key_never_present (ticks : List Tick) :
    twoPortKey = ["web/10.0.0.1:8080", "web/10.0.0.1:8443"] ∧
    (start guardedStore twoPortKey twoPortService.TTL []).store = ["web/10.0.0.1:8080"] ∧
    "web/10.0.0.1:8443" ∉
      (loop guardedStore twoPortKey (start guardedStore twoPortKey twoPortService.TTL [])
        ticks).store ∧
    ∀ w ∈ (loop guardedStore twoPortKey (start guardedStore twoPortKey twoPortService.TTL [])
        ticks).writes, w.key = "web/10.0.0.1:8443" → w.ok = false := by
  have hk : twoPortKey = ["web/10.0.0.1:8080", "web/10.0.0.1:8443"] := by decide
  refine ⟨hk, by decide, ?_⟩
  rw [hk]
  have hne : ("web/10.0.0.1:8443" : String) ≠ "web/10.0.0.1:8080" := by decide
  have h0 := keep_guarded_second_absent "web/10.0.0.1:8080" "web/10.0.0.1:8443" [] hne []
    { PrevExist := PrevExistType.PrevIgnore, TTL := twoPortService.TTL } (by simp)
  exact loop_guarded_second_absent "web/10.0.0.1:8080" "web/10.0.0.1:8443" [] hne
    (start guardedStore ["web/10.0.0.1:8080", "web/10.0.0.1:8443"] twoPortService.TTL [])
    h0.1 h0.2 ticks

/-! ## The registry -/

theorem cancelAt_length {δ : Type} (ts : List (Task δ)) (n : Nat) :
    (cancelAt ts n).length = ts.length := by
  induction ts generalizing n with
  | nil => rfl
  | cons x xs ih =>
    cases n with
    | zero => rfl
    | succ m => simp [cancelAt, ih]

theorem cancelAt_active {δ : Type} (ts : List (Task δ)) (n h : Nat) (t : Task δ)
    (ht : (cancelAt ts n)[h]? = some t) (hc : t.cancelled = false) :
    ts[h]? = some t ∧ h ≠ n := by
  induction ts generalizing n h with
  | nil => simp [cancelAt] at ht
  | cons x xs ih =>
    cases n with
    | zero =>
      cases h with
      | zero =>
        simp only [cancelAt, List.getElem?_cons_zero, Option.some.injEq] at ht
        rw [← ht] at hc
        simp at hc
      | succ j =>
        simp only [cancelAt, List.getElem?_cons_succ] at ht
        exact ⟨by simpa using ht, by omega⟩
    | succ m =>
      cases h with
      | zero =>
        simp only [cancelAt, List.getElem?_cons_zero] at ht
        exact ⟨by simpa using ht, by omega⟩
      | succ j =>
        simp only [cancelAt, List.getElem?_cons_succ] at ht
        obtain ⟨h1, h2⟩ := ih m j ht
        exact ⟨by simpa using h1, by omega⟩

theorem cancelAt_self {δ : Type} (ts : List (Task δ)) (n : Nat) (hn : n < ts.length) :
    ∃ t, (cancelAt ts n)[n]? = some t ∧ t.cancelled = true := by
  induction ts generalizing n with
  | nil => simp at hn
  | cons x xs ih =>
    cases n with
    | zero => exact ⟨{ x with cancelled := true }, by simp [cancelAt], rfl⟩
    | succ m =>
      simp only [List.length_cons, add_lt_add_iff_right] at hn
      obtain ⟨t, h1, h2⟩ := ih m hn
      exact ⟨t, by simpa [cancelAt] using h1, h2⟩

theorem Inv_empty {δ : Type} : (Registry.empty : Registry δ).Inv := by
  constructor
  · intro id rr h
    simp [Registry.empty] at h
  · intro h t ht
    simp [Registry.empty] at ht

theorem Inv_abort {δ : Type} (r : Registry δ) (rr : RunningRecord) (hr : r.Inv) :
    (rr.abort r).Inv := by
  obtain ⟨h1, h2⟩ := hr
  constructor
  · intro id rr' hrec
    have := h1 id rr' hrec
    simpa [RunningRecord.abort, cancelAt_length] using this
  · intro h t ht hc
    exact h2 h t (cancelAt_active r.tasks rr.Abort h t ht hc).1 hc

theorem NoActive_abort {δ : Type} (r : Registry δ) (id : String) (rr : RunningRecord)
    (hr : r.Inv) (hrec : r.Record id = some rr) : (rr.abort r).NoActive id := by
  intro h t ht hid
  by_contra hc
  have hc' : t.cancelled = false := by simpa using hc
  obtain ⟨hold, hne⟩ := cancelAt_active r.tasks rr.Abort h t ht hc'
  obtain ⟨rr', hrr', hab⟩ := hr.2 h t hold hc'
  rw [hid, hrec] at hrr'
  cases hrr'
  exact hne hab.symm

theorem NoActive_of_no_record {δ : Type} (r : Registry δ) (id : String)
    (hr : r.Inv) (hrec : r.Record id = none) : r.NoActive id := by
  intro h t ht hid
  by_contra hc
  have hc' : t.cancelled = false := by simpa using hc
  obtain ⟨rr', hrr', _⟩ := hr.2 h t ht hc'
  rw [hid, hrec] at hrr'
  cases hrr'

theorem Register_short {δ : Type} (cfg : Config δ) (r : Registry δ) (service : Service)
    (hid : service.Id.utf8ByteSize < 12) : Register cfg r service = Outcome.panicked r := by
  simp [Register, hid]

theorem Register_no_key {δ : Type} (cfg : Config δ) (r : Registry δ) (service : Service)
    (hid : ¬ service.Id.utf8ByteSize < 12)
    (hep : endpoint service.ProbeEndpoint (deriveKey cfg.Advertise service) = none) :
    Register cfg r service = Outcome.panicked r := by
  simp [Register, hid, hep]

theorem Register_alloc_error {δ : Type} (cfg : Config δ) (r : Registry δ) (service : Service)
    (hid : ¬ service.Id.utf8ByteSize < 12) (ep e : String)
    (hep : endpoint service.ProbeEndpoint (deriveKey cfg.Advertise service) = some ep)
    (hal : cfg.AllocHelper service.ProbeType ep = Except.error e) :
    Register cfg r service = Outcome.returned r := by
  simp [Register, hid, hep, hal]

theorem Register_alloc_ok {δ : Type} (cfg : Config δ) (r : Registry δ) (service : Service)
    (hid : ¬ service.Id.utf8ByteSize < 12) (ep : String) (driver : δ)
    (hep : endpoint service.ProbeEndpoint (deriveKey cfg.Advertise service) = some ep)
    (hal : cfg.AllocHelper service.ProbeType ep = Except.ok driver) :
    Register cfg r service = Outcome.returned
      { Record := Function.update r.Record service.Id
          (some { Srv := service.Srv, Abort := r.tasks.length }),
        rec_ := r.rec_,
        tasks := r.tasks ++
          [{ service := service, key := deriveKey cfg.Advertise service, driver := driver,
             cancelled := false }] } := by
  simp [Register, hid, hep, hal]

theorem Inv_Register {δ : Type} (cfg : Config δ) (r : Registry δ) (service : Service)
    (hr : r.Inv) (hno : r.NoActive service.Id) : (Register cfg r service).registry.Inv := by
  by_cases hid : service.Id.utf8ByteSize < 12
  · rw [Register_short cfg r service hid]
    exact hr
  · cases hep : endpoint service.ProbeEndpoint (deriveKey cfg.Advertise service) with
    | none =>
      rw [Register_no_key cfg r service hid hep]
      exact hr
    | some ep =>
      cases hal : cfg.AllocHelper service.ProbeType ep with
      | error e =>
        rw [Register_alloc_error cfg r service hid ep e hep hal]
        exact hr
      | ok driver =>
        rw [Register_alloc_ok cfg r service hid ep driver hep hal]
        simp only [Outcome.registry]
        constructor
        · intro id rr hrec
          simp only [List.length_append, List.length_singleton]
          by_cases hidq : id = service.Id
          · subst hidq
            simp only [Function.update_same, Option.some.injEq] at hrec
            subst hrec
            exact ⟨by simp, by omega⟩
          · simp only [Function.update_noteq hidq] at hrec
            have := hr.1 id rr hrec
            exact ⟨by omega, this.2⟩
        · intro h t ht hc
          simp only [List.getElem?_append] at ht
          by_cases hlt : h < r.tasks.length
          · rw [if_pos hlt] at ht
            have hne : t.service.Id ≠ service.Id := by
              intro heq
              have := hno h t ht heq
              rw [hc] at this
              cases this
            obtain ⟨rr, hrr, hab⟩ := hr.2 h t ht hc
            refine ⟨rr, ?_, hab⟩
            simp only [Function.update_noteq hne]
            exact hrr
          · rw [if_neg hlt] at ht
            have hlen : h - r.tasks.length = 0 := by
              by_contra hpos
              have : ([(Task.mk service (deriveKey cfg.Advertise service) driver false :
                  Task δ)])[h - r.tasks.length]? = none := by
                apply List.getElem?_eq_none
                simp only [List.length_singleton]
                omega
              rw [this] at ht
              cases ht
            rw [hlen] at ht
            simp only [List.getElem?_cons_zero, Option.some.injEq] at ht
            subst ht
            exact ⟨_, Function.update_same _ _ _, by simp only; omega⟩

theorem Inv_Place {δ : Type} (cfg : Config δ) (r : Registry δ) (service : Service)
    (hr : r.Inv) : (Place cfg r service).registry.Inv := by
  unfold Place
  cases hrec : r.Record service.Id with
  | none =>
    exact Inv_Register cfg _ service ⟨hr.1, hr.2⟩ (NoActive_of_no_record r service.Id hr hrec)
  | some rr =>
    have hi := Inv_abort r rr hr
    exact Inv_Register cfg _ service ⟨hi.1, hi.2⟩ (NoActive_abort r service.Id rr hr hrec)

theorem Inv_Suspend {δ : Type} (r : Registry δ) (iden : String) (hr : r.Inv) :
    (Suspend r iden).registry.Inv := by
  unfold Suspend
  cases hrec : r.Record iden with
  | none => exact hr
  | some rr => exact Inv_abort r rr hr

theorem Unregister_registry {δ : Type} (r : Registry δ) (iden : String) (rr : RunningRecord)
    (hrec : r.Record iden = some rr) :
    (Unregister r iden).registry =
      { Record := Function.update r.Record iden none,
        rec_ := Function.update r.rec_ iden none,
        tasks := cancelAt r.tasks rr.Abort } := by
  unfold Unregister
  rw [hrec]
  by_cases hlen : iden.utf8ByteSize < 12
  · simp [hlen, Outcome.registry, RunningRecord.abort]
  · simp [hlen, Outcome.registry, RunningRecord.abort]

theorem Unregister_no_record {δ : Type} (r : Registry δ) (iden : String)
    (hrec : r.Record iden = none) : Unregister r iden = Outcome.returned r := by
  unfold Unregister
  rw [hrec]

theorem Inv_Unregister {δ : Type} (r : Registry δ) (iden : String) (hr : r.Inv) :
    (Unregister r iden).registry.Inv := by
  cases hrec : r.Record iden with
  | none =>
    rw [Unregister_no_record r iden hrec]
    exact hr
  | some rr =>
    rw [Unregister_registry r iden rr hrec]
    constructor
    · intro id rr' hrec'
      by_cases hidq : id = iden
      · subst hidq
        simp at hrec'
      · simp only [Function.update_noteq hidq] at hrec'
        have := hr.1 id rr' hrec'
        simpa [cancelAt_length] using this
    · intro h t ht hc
      obtain ⟨hold, hne⟩ := cancelAt_active r.tasks rr.Abort h t ht hc
      obtain ⟨rr', hrr', hab⟩ := hr.2 h t hold hc
      have hidne : t.service.Id ≠ iden := by
        intro heq
        rw [heq, hrec] at hrr'
        cases hrr'
        exact hne hab.symm
      refine ⟨rr', ?_, hab⟩
      simp only [Function.update_noteq hidne]
      exact hrr'

theorem Inv_run {δ : Type} (cfg : Config δ) (r : Registry δ) (calls : List Call) (hr : r.Inv) :
    (run cfg r calls).registry.Inv := by
  induction calls generalizing r with
  | nil => exact hr
  | cons c cs ih =>
    have hstep : (c.apply cfg r).registry.Inv := by
      cases c with
      | Place service => exact Inv_Place cfg r service hr
      | Suspend iden => exact Inv_Suspend r iden hr
      | Unregister iden => exact Inv_Unregister r iden hr
    unfold run
    cases hc : c.apply cfg r with
    | returned r1 =>
      rw [hc] at hstep
      exact ih r1 hstep
    | panicked r1 =>
      rw [hc] at hstep
      exact hstep

/-! ## The probe target -/

theorem takeWhile_append_cons_of_all {α : Type} (p : α → Bool) (l : List α) (a : α) (r : List α)
    (hl : ∀ x ∈ l, p x = true) (ha : p a = false) : (l ++ a :: r).takeWhile p = l := by
  induction l with
  | nil => simp [List.takeWhile, ha]
  | cons x xs ih =>
    have hx : p x = true := hl x (List.mem_cons_self x xs)
    have ih2 := ih (fun y hy => hl y (List.mem_cons_of_mem x hy))
    show (x :: (xs ++ a :: r)).takeWhile p = x :: xs
    rw [List.takeWhile_cons, if_pos hx, ih2]

theorem pathBase_sprintfKey (srv advertise port : String)
    (ha : '/' ∉ advertise.data) (hp : '/' ∉ port.data) :
    pathBase (sprintfKey srv advertise port) = advertise ++ ":" ++ port := by
  have hne : sprintfKey srv advertise port ≠ "" := by
    intro h
    have := congrArg String.data h
    simp [sprintfKey] at this
  have hrev : (sprintfKey srv advertise port).data.reverse =
      (port.data.reverse ++ ':' :: advertise.data.reverse) ++ '/' :: srv.data.reverse := by
    simp [sprintfKey]
  have hall : ∀ x ∈ port.data.reverse ++ ':' :: advertise.data.reverse,
      (fun c : Char => c != '/') x = true := by
    intro x hx
    simp only [List.mem_append, List.mem_reverse, List.mem_cons] at hx
    have hxne : x ≠ '/' := by
      rcases hx with hx | hx | hx
      · exact fun h => hp (h ▸ hx)
      · rw [hx]; decide
      · exact fun h => ha (h ▸ hx)
    simpa using hxne
  have hdrop : stripSlashes ((port.data.reverse ++ ':' :: advertise.data.reverse) ++
      '/' :: srv.data.reverse) =
        (port.data.reverse ++ ':' :: advertise.data.reverse) ++ '/' :: srv.data.reverse := by
    unfold stripSlashes
    cases hpr : port.data.reverse with
    | nil => simp [List.dropWhile]
    | cons y ys =>
      have hy : y ≠ '/' := by
        intro h
        apply hp
        rw [← List.mem_reverse, hpr, h]
        exact List.mem_cons_self _ _
      have hyb : (y == '/') = false := by simpa using hy
      simp [List.dropWhile, hyb]
  unfold pathBase
  rw [if_neg hne]
  simp only [hrev, hdrop]
  rw [takeWhile_append_cons_of_all _ _ '/' _ hall (by decide)]
  have hlast : (port.data.reverse ++ ':' :: advertise.data.reverse).reverse =
      (advertise ++ ":" ++ port).data := by
    simp
  rw [hlast]
  have hnil : (advertise ++ ":" ++ port).data ≠ [] := by simp
  rw [if_neg hnil]

/-! ## Registration and the registry tables -/

theorem Register_tasks {δ : Type} (cfg : Config δ) (r : Registry δ) (service : Service) :
    ∃ extra, (Register cfg r service).registry.tasks = r.tasks ++ extra := by
  by_cases hid : service.Id.utf8ByteSize < 12
  · rw [Register_short cfg r service hid]
    exact ⟨[], by simp [Outcome.registry]⟩
  · cases hep : endpoint service.ProbeEndpoint (deriveKey cfg.Advertise service) with
    | none =>
      rw [Register_no_key cfg r service hid hep]
      exact ⟨[], by simp [Outcome.registry]⟩
    | some ep =>
      cases hal : cfg.AllocHelper service.ProbeType ep with
      | error e =>
        rw [Register_alloc_error cfg r service hid ep e hep hal]
        exact ⟨[], by simp [Outcome.registry]⟩
      | ok driver =>
        rw [Register_alloc_ok cfg r service hid ep driver hep hal]
        exact ⟨_, rfl⟩

theorem Place_cancels_recorded {δ : Type} (cfg : Config δ) (r : Registry δ) (service : Service)
    (rr : RunningRecord) (hr : r.Inv) (hrec : r.Record service.Id = some rr) :
    ∃ t, (Place cfg r service).registry.tasks[rr.Abort]? = some t ∧ t.cancelled = true := by
  have hlt : rr.Abort < r.tasks.length := (hr.1 service.Id rr hrec).1
  obtain ⟨t, ht, hc⟩ := cancelAt_self r.tasks rr.Abort hlt
  simp only [Place, hrec]
  obtain ⟨extra, he⟩ := Register_tasks cfg
    { rr.abort r with rec_ := Function.update (rr.abort r).rec_ service.Id (some service) } service
  rw [he]
  refine ⟨t, ?_, hc⟩
  show (cancelAt r.tasks rr.Abort ++ extra)[rr.Abort]? = some t
  rw [List.getElem?_append_left (by rw [cancelAt_length]; exact hlt)]
  exact ht

/-- C5: after every sequence of Place, Suspend and Unregister calls on an empty
registry, and for every container id, a supervisor goroutine started for that
id whose context is not cancelled is the one whose cancel handle is the entry
of Record for the id, so there is at most one; and a Place for an id that has
an entry leaves the recorded goroutine cancelled. -/
theorem at_most_one_active_supervisor {δ : Type} (cfg : Config δ) (calls : List Call)
    (id : String) :
    (∀ (h : Nat) (t : Task δ), (run cfg Registry.empty calls).registry.tasks[h]? = some t →
      t.service.Id = id → t.cancelled = false →
        ∃ rr, (run cfg Registry.empty calls).registry.Record id = some rr ∧ rr.Abort = h) ∧
    (∀ (h1 h2 : Nat) (t1 t2 : Task δ),
      (run cfg Registry.empty calls).registry.tasks[h1]? = some t1 →
      (run cfg Registry.empty calls).registry.tasks[h2]? = some t2 →
      t1.service.Id = id → t2.service.Id = id →
      t1.cancelled = false → t2.cancelled = false → h1 = h2) ∧
    (∀ (service : Service) (rr : RunningRecord),
      (run cfg Registry.empty calls).registry.Record service.Id = some rr →
        ∃ t, (Place cfg (run cfg Registry.empty calls).registry service).registry.tasks[rr.Abort]?
          = some t ∧ t.cancelled = true) := by
  have hinv := Inv_run cfg Registry.empty calls Inv_empty
  refine ⟨?_, ?_, ?_⟩
  · intro h t ht hid hc
    obtain ⟨rr, hrr, hab⟩ := hinv.2 h t ht hc
    exact ⟨rr, hid ▸ hrr, hab⟩
  · intro h1 h2 t1 t2 ht1 ht2 hid1 hid2 hc1 hc2
    obtain ⟨rr1, hrr1, hab1⟩ := hinv.2 h1 t1 ht1 hc1
    obtain ⟨rr2, hrr2, hab2⟩ := hinv.2 h2 t2 ht2 hc2
    rw [hid1] at hrr1
    rw [hid2, hrr1] at hrr2
    cases hrr2
    rw [← hab1, ← hab2]
  · intro service rr hrec
    exact Place_cancels_recorded cfg _ service rr hinv hrec

/-- C6, as the code has it: in every state reached by Place, Suspend and
Unregister calls and for every container id, Unregister(id) returns and leaves
Record without an entry for the id; when Record had an entry for the id, the
descriptor store then has no descriptor for it and Get(id) is absent; when
Record had none, Unregister changes nothing. -/
theorem unregister_removes_recorded {δ : Type} (cfg : Config δ) (calls : List Call)
    (id : String) :
    (Unregister (run cfg Registry.empty calls).registry id).isReturned = true ∧
    (Unregister (run cfg Registry.empty calls).registry id).registry.Record id = none ∧
    ((run cfg Registry.empty calls).registry.Record id ≠ none →
      (Unregister (run cfg Registry.empty calls).registry id).registry.rec_ id = none ∧
      Get (Unregister (run cfg Registry.empty calls).registry id).registry id = none) ∧
    ((run cfg Registry.empty calls).registry.Record id = none →
      Unregister (run cfg Registry.empty calls).registry id =
        Outcome.returned (run cfg Registry.empty calls).registry) := by
  have hinv := Inv_run cfg Registry.empty calls Inv_empty
  cases hrec : (run cfg Registry.empty calls).registry.Record id with
  | none =>
    rw [Unregister_no_record _ id hrec]
    exact ⟨rfl, hrec, fun h => absurd rfl h, fun _ => rfl⟩
  | some rr =>
    have hlen : ¬ id.utf8ByteSize < 12 := by
      have := (hinv.1 id rr hrec).2
      omega
    refine ⟨?_, ?_, ?_, ?_⟩
    · simp [Unregister, hrec, hlen, Outcome.isReturned]
    · rw [Unregister_registry _ id rr hrec]
      simp
    · intro _
      rw [Unregister_registry _ id rr hrec]
      simp [Get]
    · intro h
      cases h

/-- C6, counterexample: with the "tcp" probe family the registration of
`webService` is aborted after Place has stored the descriptor; Record has no
entry for the id, Unregister does nothing, and Get still returns the
descriptor. -/
theorem unregister_keeps_descriptor :
    (run tcpConfig Registry.empty [Call.Place webService]).isReturned = true ∧
    (run tcpConfig Registry.empty [Call.Place webService]).registry.Record webService.Id = none ∧
    (Unregister (run tcpConfig Registry.empty [Call.Place webService]).registry
      webService.Id).isReturned = true ∧
    Get (Unregister (run tcpConfig Registry.empty [Call.Place webService]).registry
      webService.Id).registry webService.Id = some webService := by
  decide

theorem digitChar_ne_slash (n : Nat) : Nat.digitChar (n % 10) ≠ '/' := by
  have hk : n % 10 < 10 := Nat.mod_lt n (by decide)
  generalize n % 10 = k at hk
  interval_cases k <;> decide

theorem toDigitsCore_no_slash (fuel n : Nat) (ds : List Char) (hds : '/' ∉ ds) :
    '/' ∉ Nat.toDigitsCore 10 fuel n ds := by
  induction fuel generalizing n ds with
  | zero => simpa [Nat.toDigitsCore] using hds
  | succ f ih =>
    have hcons : '/' ∉ Nat.digitChar (n % 10) :: ds := by
      simp only [List.mem_cons, not_or]
      exact ⟨fun h => digitChar_ne_slash n h.symm, hds⟩
    unfold Nat.toDigitsCore
    simp only
    split
    · exact hcons
    · exact ih _ _ hcons

theorem fmtInt_no_slash (n : Int) : '/' ∉ (fmtInt n).data := by
  cases n with
  | ofNat m =>
    show '/' ∉ (Nat.repr m).data
    simp only [Nat.repr, Nat.toDigits, List.asString]
    exact toDigitsCore_no_slash _ _ [] (by simp)
  | negSucc m =>
    show '/' ∉ ("-" ++ Nat.repr (m + 1)).data
    simp only [String.data_append, List.mem_append, not_or]
    refine ⟨by decide, ?_⟩
    simp only [Nat.repr, Nat.toDigits, List.asString]
    exact toDigitsCore_no_slash _ _ [] (by simp)

theorem endpoint_cons (probeEndpoint k0 : String) (rest : List String) :
    endpoint probeEndpoint (k0 :: rest) =
      some (if probeEndpoint = "" then pathBase k0 else pathBase k0 ++ "/" ++ probeEndpoint) := by
  by_cases h : probeEndpoint = "" <;> simp [endpoint, h]

/-- C7, as the code has it: for a descriptor whose derived key list is
non-empty, the probe target Register passes to the driver allocator is the
last path segment of the first lease key when ProbeEndpoint is empty, and that
segment followed by "/" and ProbeEndpoint when it is not; the segment is
"Advertise:port" when neither the advertise address nor the port label
contains a slash. -/
theorem endpoint_of_first_key {δ : Type} (cfg : Config δ) (r : Registry δ) (service : Service)
    (k0 : String) (rest : List String) (hkey : deriveKey cfg.Advertise service = k0 :: rest) :
    endpoint service.ProbeEndpoint (deriveKey cfg.Advertise service) =
      some (if service.ProbeEndpoint = "" then pathBase k0
            else pathBase k0 ++ "/" ++ service.ProbeEndpoint) ∧
    (12 ≤ service.Id.utf8ByteSize →
      Register cfg r service =
        match cfg.AllocHelper service.ProbeType
            (if service.ProbeEndpoint = "" then pathBase k0
             else pathBase k0 ++ "/" ++ service.ProbeEndpoint) with
        | Except.error _ => Outcome.returned r
        | Except.ok driver =>
          Outcome.returned
            { Record := Function.update r.Record service.Id
                (some { Srv := service.Srv, Abort := r.tasks.length }),
              rec_ := r.rec_,
              tasks := r.tasks ++
                [{ service := service, key := k0 :: rest, driver := driver,
                   cancelled := false }] }) ∧
    ('/' ∉ cfg.Advertise.data →
      (service.Port ≠ "" → '/' ∉ service.Port.data →
        pathBase k0 = cfg.Advertise ++ ":" ++ service.Port) ∧
      (service.Port = "" → ∃ p ∈ service.Net, p.PublicPort ≠ 0 ∧ p.IP = "0.0.0.0" ∧
        pathBase k0 = cfg.Advertise ++ ":" ++ fmtInt p.PublicPort)) := by
  have hep := endpoint_cons service.ProbeEndpoint k0 rest
  refine ⟨by rw [hkey]; exact hep, ?_, ?_⟩
  · intro hlen
    have hid : ¬ service.Id.utf8ByteSize < 12 := by omega
    rw [← hkey] at hep
    cases hal : cfg.AllocHelper service.ProbeType
        (if service.ProbeEndpoint = "" then pathBase k0
         else pathBase k0 ++ "/" ++ service.ProbeEndpoint) with
    | error e => exact Register_alloc_error cfg r service hid _ e hep hal
    | ok driver =>
      rw [Register_alloc_ok cfg r service hid _ driver hep hal, hkey]
  · intro hadv
    have href := deriveKey_ref cfg.Advertise service
    rw [hkey] at href
    constructor
    · intro hport hslash
      simp only [deriveKeyRef, hport, if_true, ne_eq, not_false_eq_true, List.cons.injEq] at href
      rw [href.1]
      exact pathBase_sprintfKey service.Srv cfg.Advertise service.Port hadv hslash
    · intro hport
      have hnp : ¬ (service.Port ≠ "") := by simp [hport]
      simp only [deriveKeyRef, if_neg hnp] at href
      cases hf : service.Net.filter
          (fun p => decide (p.PublicPort ≠ 0) && decide (p.IP = "0.0.0.0")) with
      | nil => rw [hf] at href; simp at href
      | cons p ps =>
        rw [hf] at href
        simp only [List.map_cons, List.cons.injEq] at href
        have hmem : p ∈ service.Net.filter
            (fun p => decide (p.PublicPort ≠ 0) && decide (p.IP = "0.0.0.0")) := by
          rw [hf]
          exact List.mem_cons_self _ _
        rw [List.mem_filter] at hmem
        have hprop : p.PublicPort ≠ 0 ∧ p.IP = "0.0.0.0" := by simpa using hmem.2
        refine ⟨p, hmem.1, hprop.1, hprop.2, ?_⟩
        rw [href.1]
        exact pathBase_sprintfKey service.Srv cfg.Advertise (fmtInt p.PublicPort) hadv
          (fmtInt_no_slash p.PublicPort)

/-- C7, witness: `healthService` registered in a run whose allocator yields a
driver for every endpoint. -/
theorem endpoint_of_first_key_witness :
    endpoint healthService.ProbeEndpoint (deriveKey echoConfig.Advertise healthService) =
      some "10.0.0.1:8080/health" ∧
    (Register echoConfig Registry.empty healthService).isReturned = true ∧
    pathBase "web/10.0.0.1:8080" = "10.0.0.1:8080" := by
  have h := endpoint_of_first_key echoConfig Registry.empty healthService
    "web/10.0.0.1:8080" [] (by decide)
  refine ⟨?_, ?_, ?_⟩
  · rw [h.1]; decide
  · rw [h.2.1 (by decide)]; decide
  · exact (h.2.2 (by decide)).1 (by decide) (by decide)

/-- C7, counterexample: for `healthService`, whose ProbeEndpoint is "health" and
whose only lease key is "web/10.0.0.1:8080", the probe target handed to the
allocator is "10.0.0.1:8080/health" and not "health"; the driver of the started
goroutine is the one allocated for that target. And for the port label
"8080/tcp" the last path segment of the key is "tcp", not
"10.0.0.1:8080/tcp". -/
theorem endpoint_is_not_probeEndpoint :
    healthService.ProbeEndpoint = "health" ∧
    deriveKey echoConfig.Advertise healthService = ["web/10.0.0.1:8080"] ∧
    endpoint healthService.ProbeEndpoint (deriveKey echoConfig.Advertise healthService) =
      some "10.0.0.1:8080/health" ∧
    endpoint healthService.ProbeEndpoint (deriveKey echoConfig.Advertise healthService) ≠
      some healthService.ProbeEndpoint ∧
    (Register echoConfig Registry.empty healthService).registry.tasks.map
      (fun t => t.driver) = ["10.0.0.1:8080/health"] ∧
    pathBase (sprintfKey "web" "10.0.0.1" "8080/tcp") = "tcp" := by
  decide

/-- C8, the code at a failing input: `loopbackService` has a service label, no
port label and one mapping with a public port, bound to 127.0.0.1. The checks
of NewRecord accept it, it has no advertisable port, its id has 16 bytes, the
key list Register derives is empty, and Register panics at `serv.key[0]`. -/
theorem newRecord_tracks_unadvertisable :
    NewRecordTracks loopbackService.Srv loopbackService.Port loopbackService.Net = true ∧
    ¬ Advertisable loopbackService.Port loopbackService.Net ∧
    12 ≤ loopbackService.Id.utf8ByteSize ∧
    deriveKey echoConfig.Advertise loopbackService = [] ∧
    endpoint loopbackService.ProbeEndpoint (deriveKey echoConfig.Advertise loopbackService) =
      none ∧
    (Register echoConfig Registry.empty loopbackService).isReturned = false := by
  refine ⟨by decide, ?_, by decide, by decide, by decide, by decide⟩
  unfold Advertisable
  decide

/-- C9: for a descriptor with a non-empty derived key list and any registry
state, if the allocator answers the probe target with an error then Register
starts no goroutine and leaves both tables as they were, and it returns when
the id has at least 12 bytes (for a shorter id it has panicked at line 141,
before the allocator is called); with the allocator of the "tcp" family every
registration ends this way. -/
theorem register_alloc_error_spawns_nothing {δ : Type} (cfg : Config δ) (r : Registry δ)
    (service : Service) (hkey : deriveKey cfg.Advertise service ≠ []) :
    ((∀ ep, endpoint service.ProbeEndpoint (deriveKey cfg.Advertise service) = some ep →
        ∃ e, cfg.AllocHelper service.ProbeType ep = Except.error e) →
      (Register cfg r service).registry = r ∧
      (12 ≤ service.Id.utf8ByteSize → Register cfg r service = Outcome.returned r)) ∧
    (cfg.AllocHelper service.ProbeType = tcpAllocDriver →
      (Register cfg r service).registry = r ∧
      (12 ≤ service.Id.utf8ByteSize → Register cfg r service = Outcome.returned r)) := by
  have hmain : (∀ ep, endpoint service.ProbeEndpoint (deriveKey cfg.Advertise service) = some ep →
        ∃ e, cfg.AllocHelper service.ProbeType ep = Except.error e) →
      (Register cfg r service).registry = r ∧
      (12 ≤ service.Id.utf8ByteSize → Register cfg r service = Outcome.returned r) := by
    intro herr
    cases hk : deriveKey cfg.Advertise service with
    | nil => exact absurd hk hkey
    | cons k0 rest =>
      have hep := endpoint_cons service.ProbeEndpoint k0 rest
      rw [← hk] at hep
      obtain ⟨e, he⟩ := herr _ hep
      by_cases hid : service.Id.utf8ByteSize < 12
      · rw [Register_short cfg r service hid]
        exact ⟨rfl, fun h => absurd hid (by omega)⟩
      · rw [Register_alloc_error cfg r service hid _ e hep he]
        exact ⟨rfl, fun _ => rfl⟩
  refine ⟨hmain, ?_⟩
  intro htcp
  apply hmain
  intro ep _
  exact ⟨"Not yet implemented", by rw [htcp]; rfl⟩

/-- C9, witness: `webService` registered with the "tcp" probe family. -/
theorem register_alloc_error_spawns_nothing_witness :
    deriveKey tcpConfig.Advertise webService ≠ [] ∧
    (Register tcpConfig Registry.empty webService).registry = Registry.empty ∧
    Register tcpConfig Registry.empty webService = Outcome.returned Registry.empty :=
  ⟨by decide,
    ((register_alloc_error_spawns_nothing tcpConfig Registry.empty webService
      (by decide)).2 rfl).1,
    ((register_alloc_error_spawns_nothing tcpConfig Registry.empty webService
      (by decide)).2 rfl).2 (by decide)⟩

/-- C2, at concrete inputs: the two keys of `twoPortService` on a
guard-honouring store that starts empty, where the second write fails and the
guard ends at PrevIgnore; and three keys on a store scripted to fail the
second write, where the third key is not written. -/
theorem keep_write_cycle_witness :
    (keep guardedStore twoPortKey [] { PrevExist := PrevExistType.PrevIgnore, TTL := 90 }).writes =
      [{ key := "web/10.0.0.1:8080", opts := { PrevExist := PrevExistType.PrevIgnore, TTL := 90 },
         ok := true },
       { key := "web/10.0.0.1:8443", opts := { PrevExist := PrevExistType.PrevExist, TTL := 90 },
         ok := false }] ∧
    (keep scriptedStore ["a", "b", "c"] [none, some "timeout", none]
      { PrevExist := PrevExistType.PrevNoExist, TTL := 90 }).writes =
      [{ key := "a", opts := { PrevExist := PrevExistType.PrevNoExist, TTL := 90 }, ok := true },
       { key := "b", opts := { PrevExist := PrevExistType.PrevExist, TTL := 90 },
         ok := false }] ∧
    (keep guardedStore twoPortKey [] { PrevExist := PrevExistType.PrevIgnore, TTL := 90 }).opts.PrevExist
      = PrevExistType.PrevIgnore :=
  ⟨by decide, by decide,
    (keep_write_cycle guardedStore twoPortKey []
      { PrevExist := PrevExistType.PrevIgnore, TTL := 90 }).2.2.2.2.2.2
      ⟨{ key := "web/10.0.0.1:8443",
         opts := { PrevExist := PrevExistType.PrevExist, TTL := 90 }, ok := false },
        by decide, rfl⟩⟩

/-- C5, at a concrete input: `webService` placed twice in a run whose allocator
yields a driver; the first goroutine is cancelled, the second is live and is
the one recorded. -/
theorem at_most_one_active_supervisor_witness :
    (run echoConfig Registry.empty
      [Call.Place webService, Call.Place webService]).registry.tasks.map
        (fun t => (t.service.Id, t.cancelled)) =
      [("0123456789abcdef", true), ("0123456789abcdef", false)] ∧
    ∃ rr, (run echoConfig Registry.empty
      [Call.Place webService, Call.Place webService]).registry.Record "0123456789abcdef"
        = some rr ∧ rr.Abort = 1 :=
  ⟨by decide,
    (at_most_one_active_supervisor echoConfig [Call.Place webService, Call.Place webService]
      "0123456789abcdef").1 1
      { service := webService, key := ["web/10.0.0.1:8080"], driver := "10.0.0.1:8080",
        cancelled := false }
      (by decide) (by decide) rfl⟩

/-- C6, at a concrete input: `webService` placed in a run whose allocator yields
a driver, then unregistered; the descriptor is gone. -/
theorem unregister_removes_recorded_witness :
    (run echoConfig Registry.empty [Call.Place webService]).registry.Record webService.Id ≠
      none ∧
    Get (Unregister (run echoConfig Registry.empty [Call.Place webService]).registry
      webService.Id).registry webService.Id = none :=
  ⟨by decide,
    ((unregister_removes_recorded echoConfig [Call.Place webService] webService.Id).2.2.1
      (by decide)).2⟩

end Upkeep
